import Mathlib

/-!
Verification of the tabular RL agent in `src/agent/base_agent.py`.

The Python code keeps a Q-table as
`self._qvalues = defaultdict(lambda: defaultdict(lambda: 0))`,
a two-level mapping from state tuples to action tuples to numeric values.
We embed Python dictionaries as association lists with unique keys, kept
in insertion order, and model the crucial `defaultdict` semantics
faithfully: `d[k]` on a missing key INSERTS the default value and returns
it, so even a read mutates the table.  States and actions are sequences
of primitive elements, modelled as `List Int`; Python sequences passed in
as either lists or tuples are modelled by `PySeq`, and the source's
normalisation `tuple(list(x))` by `PySeq.toTuple`.  Numeric values are
modelled by `Rat` (the code stores whatever number the caller passes,
with integer default `0`).
-/

/-- Python `dict` lookup (`k in d` / `d.get(k)`): the value stored at the
first (and, for the unique-key lists we build, only) occurrence of `k`. -/
def alistGet {α β : Type} [DecidableEq α] : List (α × β) → α → Option β
  | [], _ => none
  | (k0, v0) :: rest, k => if k = k0 then some v0 else alistGet rest k

/-- Python `dict` assignment `d[k] = v`: overwrite the value at `k` if the
key is present (keeping its position, as Python dicts do), otherwise
append the new entry at the end (Python insertion order). -/
def alistSet {α β : Type} [DecidableEq α] : List (α × β) → α → β → List (α × β)
  | [], k, v => [(k, v)]
  | (k0, v0) :: rest, k, v =>
      if k = k0 then (k0, v) :: rest else (k0, v0) :: alistSet rest k v

/-- Python `defaultdict.__getitem__`: return the stored value, or insert
the default `d` for the key and return it.  The possibly grown dictionary
is returned alongside the value, since in Python this is an in-place
mutation. -/
def ddGet {α β : Type} [DecidableEq α] (l : List (α × β)) (k : α) (d : β) :
    β × List (α × β) :=
  match alistGet l k with
  | some v => (v, l)
  | none => (d, l ++ [(k, d)])

/-- A Python sequence argument for a state or an action: the caller may
pass a list or a tuple; only the element sequence matters. -/
inductive PySeq : Type where
  | list (elems : List Int)
  | tuple (elems : List Int)
  deriving DecidableEq

/-- The normalisation `tuple(list(x))` performed by `get_qvalue` and
`set_qvalue`: both containers become the tuple of their elements. -/
def PySeq.toTuple : PySeq → List Int
  | .list xs => xs
  | .tuple xs => xs

/-- Inner level of the Q-table: a dictionary from action tuples to values
(`defaultdict(lambda: 0)` in the source). -/
abbrev InnerQ : Type := List (List Int × Rat)

/-- Outer level of the Q-table: a dictionary from state tuples to inner
dictionaries (`defaultdict(lambda: defaultdict(lambda: 0))`). -/
abbrev QTable : Type := List (List Int × InnerQ)

/-- The state of an `Agent` object: the Q-table `_qvalues` and the
learning flag `_learn`. -/
structure Agent : Type where
  qvalues : QTable
  learn : Bool
  deriving DecidableEq

/-- `Agent.__init__`: empty table, learning mode on. -/
def Agent.init : Agent := { qvalues := [], learn := true }

/-- `Agent.learning_mode_on`: sets `self._learn = True`. -/
def Agent.learning_mode_on (ag : Agent) : Agent := { ag with learn := true }

/-- `Agent.learning_mode_off`: sets `self._learn = False`. -/
def Agent.learning_mode_off (ag : Agent) : Agent := { ag with learn := false }

/-- `Agent.get_qvalue(state, action)`: normalise both arguments to tuples
and evaluate `self._qvalues[state][action]`.  Both indexings are
`defaultdict` accesses: a missing state inserts a fresh empty inner
dictionary, and a missing action then inserts the default `0`, so the
returned table may have grown.  The inner dictionary is written back
under the state key, mirroring the in-place mutation of the shared inner
`defaultdict` object in Python. -/
def Agent.get_qvalue (ag : Agent) (state action : PySeq) : Rat × Agent :=
  let s := state.toTuple
  let a := action.toTuple
  let outer := ddGet ag.qvalues s []
  let inner := ddGet outer.1 a 0
  (inner.1, { ag with qvalues := alistSet outer.2 s inner.2 })

/-- `Agent.set_qvalue(state, action, value)`: normalise both arguments to
tuples and execute `self._qvalues[state][action] = value`.  The outer
indexing is a `defaultdict` access (inserting an empty inner dictionary
for a new state); the inner indexing is a plain dict assignment. -/
def Agent.set_qvalue (ag : Agent) (state action : PySeq) (value : Rat) : Agent :=
  let s := state.toTuple
  let a := action.toTuple
  let outer := ddGet ag.qvalues s []
  { ag with qvalues := alistSet outer.2 s (alistSet outer.1 a value) }

/-- `Agent._dict_to_defaultdict(dictionary)`: builds
`defaultdict(lambda: 0)` and `update`s it with `dictionary`; the stored
entries are exactly those of the input (the zero default is behaviour of
the container, not content). -/
def Agent.dict_to_defaultdict (dictionary : InnerQ) : InnerQ := dictionary

/-- `Agent.save_model(filename)`: the value persisted to the file is
`dictionary_q = {key: {k: v for k, v in val.items()} for key, val in
self._qvalues.items()}`, a plain two-level dictionary with exactly the
entries of `_qvalues`.  We model the persisted value itself; writing it
to a named file is I/O outside the shallow embedding. -/
def Agent.save_model (ag : Agent) : QTable :=
  ag.qvalues.map (fun kv => (kv.1, kv.2.map (fun kv2 => (kv2.1, kv2.2))))

/-- The single error kind of `Agent.load_model`: `np.load` raises if the
file is missing, and the subsequent `.item()` / comprehension raise if
the contents are not the expected two-level mapping. -/
inductive LoadError : Type where
  | fileNotFoundOrBadFormat
  deriving DecidableEq

/-- `Agent.load_model(filename)`: the file contents are modelled as
`Option QTable` — `none` when the path does not exist or does not
deserialise to the expected two-level mapping (in which case the
exception is raised before `self._qvalues` is touched, so the agent is
returned unchanged).  On success each inner dictionary is rewrapped as a
`defaultdict` via `_dict_to_defaultdict`, `_qvalues` is reinitialised
empty, and then updated with the loaded entries: the table is replaced
wholesale by the file contents. -/
def Agent.load_model (ag : Agent) (file : Option QTable) : Option LoadError × Agent :=
  match file with
  | none => (some LoadError.fileNotFoundOrBadFormat, ag)
  | some dict_q =>
      let dict_q2 := dict_q.map (fun kv => (kv.1, Agent.dict_to_defaultdict kv.2))
      (none, { ag with qvalues := [] ++ dict_q2 })

/-- `RandomAgent.update(state, action, reward, next_state)`: the body is
`pass`; nothing is mutated. -/
def RandomAgent.update (ag : Agent) (state action : PySeq) (reward : Rat)
    (next_state : PySeq) : Agent :=
  ag

/-- The list comprehension
`q_val = [self.get_qvalue(state, action) for action in actions]` inside
`RandomAgent.get_value`: evaluated left to right, threading the table
mutations of each (vivifying) `get_qvalue` call. -/
def qvalComprehension (ag : Agent) (state : PySeq) : List PySeq → List Rat × Agent
  | [] => ([], ag)
  | action :: rest =>
      let step := ag.get_qvalue state action
      let tail := qvalComprehension step.2 state rest
      (step.1 :: tail.1, tail.2)

/-- `RandomAgent.get_value(state, possible_actions)`: copies the action
list, collects `get_qvalue(state, a)` for each candidate, returns `0` if
that list is empty and `np.sum(q_val) / len(q_val)` otherwise. -/
def RandomAgent.get_value (ag : Agent) (state : PySeq)
    (possible_actions : List PySeq) : Rat × Agent :=
  let actions := possible_actions
  let comp := qvalComprehension ag state actions
  if comp.1.length = 0 then (0, comp.2)
  else (comp.1.sum / (comp.1.length : Rat), comp.2)

/-- `RandomAgent.get_action(possible_actions)`: copies the list, returns
`None` when it is empty, and otherwise returns
`actions[np.random.choice(range(len(actions)))]`.  Randomness is modelled
by passing the sampled index `idx_choice` explicitly; `np.random.choice`
over `range(len(actions))` always yields an index below the length. -/
def RandomAgent.get_action {α : Type} (possible_actions : List α)
    (idx_choice : Nat) : Option α :=
  let actions := possible_actions
  if actions.length = 0 then none
  else actions[idx_choice]?

/-- Pure two-level lookup with the zero default: the value `get_qvalue`
returns, without the vivification side effect. -/
def qlookup (q : QTable) (s a : List Int) : Rat :=
  match alistGet q s with
  | none => 0
  | some inner =>
      match alistGet inner a with
      | none => 0
      | some v => v

/-- Pure two-level lookup without any default: `some v` exactly when the
pair is explicitly present as an entry. -/
def dictLookup2 (q : QTable) (s a : List Int) : Option Rat :=
  match alistGet q s with
  | none => none
  | some inner => alistGet inner a

/-! ### Lemmas about the dictionary primitives -/

theorem alistGet_alistSet_self {α β : Type} [DecidableEq α]
    (l : List (α × β)) (k : α) (v : β) :
    alistGet (alistSet l k v) k = some v := by
  induction l with
  | nil => simp [alistGet, alistSet]
  | cons hd tl ih =>
      by_cases h : k = hd.1
      · simp [alistGet, alistSet, h]
      · simp [alistGet, alistSet, h, ih]

theorem alistGet_alistSet_ne {α β : Type} [DecidableEq α]
    (l : List (α × β)) (k k' : α) (v : β) (hne : k' ≠ k) :
    alistGet (alistSet l k v) k' = alistGet l k' := by
  induction l with
  | nil => simp [alistGet, alistSet, hne]
  | cons hd tl ih =>
      by_cases h : k = hd.1
      · subst h
        simp [alistGet, alistSet, hne]
      · by_cases h' : k' = hd.1
        · simp [alistGet, alistSet, h, h']
        · simp [alistGet, alistSet, h, h', ih]

theorem alistGet_append {α β : Type} [DecidableEq α]
    (l₁ l₂ : List (α × β)) (k : α) :
    alistGet (l₁ ++ l₂) k = ((alistGet l₁ k).rec (alistGet l₂ k) (fun v => some v)) := by
  induction l₁ with
  | nil => simp [alistGet]
  | cons hd tl ih =>
      by_cases h : k = hd.1
      · simp [alistGet, h]
      · simp [alistGet, h, ih]

theorem option_rec_none_some {β : Type} (x : Option β) :
    (Option.rec none (fun v => some v) x : Option β) = x := by
  cases x <;> rfl

/-! ### Lemmas relating the agent operations to the pure lookups -/

/-- The value `get_qvalue` returns is the pure zero-default lookup. -/
theorem get_qvalue_fst (ag : Agent) (st ac : PySeq) :
    (ag.get_qvalue st ac).1 = qlookup ag.qvalues st.toTuple ac.toTuple := by
  unfold Agent.get_qvalue qlookup ddGet
  rcases ho : alistGet ag.qvalues st.toTuple with _ | inner
  · simp [ho, alistGet]
  · rcases hi : alistGet inner ac.toTuple with _ | v
    · simp [ho, hi]
    · simp [ho, hi]

/-- `get_qvalue` never changes the value of any pure lookup: the
vivification only inserts entries carrying the default `0`. -/
theorem qlookup_get_qvalue (ag : Agent) (st ac : PySeq) (s a : List Int) :
    qlookup (ag.get_qvalue st ac).2.qvalues s a = qlookup ag.qvalues s a := by
  unfold Agent.get_qvalue ddGet
  rcases ho : alistGet ag.qvalues st.toTuple with _ | inner
  · by_cases hs : s = st.toTuple
    · subst hs
      simp only [ho]
      simp [qlookup, alistGet_alistSet_self, ho]
      rcases hi : alistGet ([] : InnerQ) ac.toTuple with _ | v
      · by_cases ha : a = ac.toTuple
        · subst ha
          simp [alistGet]
        · simp [alistGet, ha] at hi ⊢
      · simp [alistGet] at hi
    · simp only [ho]
      simp [qlookup, alistGet_alistSet_ne _ _ _ _ hs,
        alistGet_append, alistGet]
      by_cases hs' : s = st.toTuple
      · exact absurd hs' hs
      · simp [hs', option_rec_none_some]
  · rcases hi : alistGet inner ac.toTuple with _ | v
    · by_cases hs : s = st.toTuple
      · subst hs
        simp only [ho, hi]
        simp [qlookup, alistGet_alistSet_self, ho, alistGet_append, alistGet]
        by_cases ha : a = ac.toTuple
        · subst ha
          simp [hi]
        · simp [ha, option_rec_none_some]
      · simp only [ho, hi]
        simp [qlookup, alistGet_alistSet_ne _ _ _ _ hs]
    · simp only [ho, hi]
      by_cases hs : s = st.toTuple
      · subst hs
        simp [qlookup, alistGet_alistSet_self, ho]
      · simp [qlookup, alistGet_alistSet_ne _ _ _ _ hs]

/-- `get_qvalue` does not touch the learning flag. -/
theorem get_qvalue_learn (ag : Agent) (st ac : PySeq) :
    (ag.get_qvalue st ac).2.learn = ag.learn := by
  unfold Agent.get_qvalue
  rfl

/-- The pure lookup after `set_qvalue`: the new value at the pair that was
set (whatever container shapes carried it), everything else unchanged. -/
theorem qlookup_set_qvalue (ag : Agent) (st ac : PySeq) (v : Rat) (s a : List Int) :
    qlookup (ag.set_qvalue st ac v).qvalues s a =
      if s = st.toTuple ∧ a = ac.toTuple then v else qlookup ag.qvalues s a := by
  unfold Agent.set_qvalue ddGet
  rcases ho : alistGet ag.qvalues st.toTuple with _ | inner
  · by_cases hs : s = st.toTuple
    · subst hs
      simp only [ho]
      simp [qlookup, alistGet_alistSet_self, ho]
      by_cases ha : a = ac.toTuple
      · simp [ha, alistGet_alistSet_self]
      · simp [ha, alistGet_alistSet_ne _ _ _ _ ha, alistGet]
    · simp only [ho]
      simp [qlookup, alistGet_alistSet_ne _ _ _ _ hs, alistGet_append, alistGet, hs,
        option_rec_none_some]
  · by_cases hs : s = st.toTuple
    · subst hs
      simp only [ho]
      simp [qlookup, alistGet_alistSet_self, ho]
      by_cases ha : a = ac.toTuple
      · simp [ha, alistGet_alistSet_self]
      · simp [ha, alistGet_alistSet_ne _ _ _ _ ha]
    · simp only [ho]
      simp [qlookup, alistGet_alistSet_ne _ _ _ _ hs, hs]

/-- `set_qvalue` does not touch the learning flag. -/
theorem set_qvalue_learn (ag : Agent) (st ac : PySeq) (v : Rat) :
    (ag.set_qvalue st ac v).learn = ag.learn := by
  unfold Agent.set_qvalue
  rfl

/-- The persisted dictionary built by `save_model` has exactly the entries
of the in-memory table. -/
theorem save_model_eq_qvalues (ag : Agent) : ag.save_model = ag.qvalues := by
  unfold Agent.save_model
  simp

/-- A pair with no explicit entry looks up to the default `0`. -/
theorem qlookup_eq_zero_of_not_stored (q : QTable) (s a : List Int)
    (h : dictLookup2 q s a = none) : qlookup q s a = 0 := by
  unfold dictLookup2 at h
  unfold qlookup
  rcases ho : alistGet q s with _ | inner
  · rfl
  · simp only [ho] at h
    simp only [h]

/-- Successful `load_model`: no error, and the table is exactly the file
contents (the learning flag is untouched). -/
theorem load_model_some (ag : Agent) (d : QTable) :
    ag.load_model (some d) = (none, { ag with qvalues := d }) := by
  simp [Agent.load_model, Agent.dict_to_defaultdict]

/-- The values collected by the comprehension in `RandomAgent.get_value`
are the pure lookups against the table the call started from: the
vivification performed along the way never changes a looked-up value. -/
theorem qvalComprehension_fst (st : PySeq) (pa : List PySeq) :
    ∀ ag : Agent, (qvalComprehension ag st pa).1 =
      pa.map (fun a => qlookup ag.qvalues st.toTuple a.toTuple) := by
  induction pa with
  | nil => intro ag; rfl
  | cons hd tl ih =>
      intro ag
      have hmap :
          (fun a : PySeq => qlookup (ag.get_qvalue st hd).2.qvalues st.toTuple a.toTuple)
            = fun a : PySeq => qlookup ag.qvalues st.toTuple a.toTuple := by
        funext a
        exact qlookup_get_qvalue ag st hd st.toTuple a.toTuple
      simp only [qvalComprehension, List.map, ih, hmap, get_qvalue_fst]

/-- The value returned by `RandomAgent.get_value`, expressed through the
comprehension. -/
theorem get_value_fst_eq (ag : Agent) (st : PySeq) (pa : List PySeq) :
    (RandomAgent.get_value ag st pa).1 =
      if (qvalComprehension ag st pa).1.length = 0 then 0
      else (qvalComprehension ag st pa).1.sum /
        ((qvalComprehension ag st pa).1.length : Rat) := by
  unfold RandomAgent.get_value
  rw [apply_ite Prod.fst]

/-- The agent returned by `RandomAgent.get_value` is the one threaded
through the comprehension. -/
theorem get_value_snd_eq (ag : Agent) (st : PySeq) (pa : List PySeq) :
    (RandomAgent.get_value ag st pa).2 = (qvalComprehension ag st pa).2 := by
  unfold RandomAgent.get_value
  rw [apply_ite Prod.snd]
  simp

/-- Neither the values collected by the comprehension nor the resulting
table depend on the learning flag. -/
theorem qvalComprehension_learn_indep (st : PySeq) (pa : List PySeq) :
    ∀ (q : QTable) (b1 b2 : Bool),
    (qvalComprehension ⟨q, b1⟩ st pa).1 = (qvalComprehension ⟨q, b2⟩ st pa).1 ∧
    (qvalComprehension ⟨q, b1⟩ st pa).2.qvalues =
      (qvalComprehension ⟨q, b2⟩ st pa).2.qvalues := by
  induction pa with
  | nil => intro q b1 b2; exact ⟨rfl, rfl⟩
  | cons hd tl ih =>
      intro q b1 b2
      have e1 : ((⟨q, b1⟩ : Agent).get_qvalue st hd).1 =
          ((⟨q, b2⟩ : Agent).get_qvalue st hd).1 := rfl
      have e2 : ((⟨q, b1⟩ : Agent).get_qvalue st hd).2 =
          (⟨((⟨q, b2⟩ : Agent).get_qvalue st hd).2.qvalues, b1⟩ : Agent) := rfl
      have e3 : ((⟨q, b2⟩ : Agent).get_qvalue st hd).2 =
          (⟨((⟨q, b2⟩ : Agent).get_qvalue st hd).2.qvalues, b2⟩ : Agent) := rfl
      simp only [qvalComprehension]
      rw [e1, e2, e3]
      exact ⟨by rw [(ih _ b1 b2).1], (ih _ b1 b2).2⟩

/-! ### The claims -/

/-- C1: for every state and action whose pair was never explicitly stored
via `set_qvalue` and never otherwise touched — i.e. the pair has no entry
in the table — `get_qvalue` returns `0`.  The lookup never raises:
`Agent.get_qvalue` is a total function (both indexings are `defaultdict`
accesses, which supply the default instead of failing). -/
theorem C1_unseen_pair_default_zero (ag : Agent) (st ac : PySeq)
    (h : dictLookup2 ag.qvalues st.toTuple ac.toTuple = none) :
    (ag.get_qvalue st ac).1 = 0 := by
  rw [get_qvalue_fst]
  exact qlookup_eq_zero_of_not_stored _ _ _ h

/-- Witness for C1: a fresh agent queried at state `[1, 2]`, action `[0]`. -/
theorem C1_witness :
    dictLookup2 Agent.init.qvalues (PySeq.list [1, 2]).toTuple
        (PySeq.tuple [0]).toTuple = none ∧
    (Agent.init.get_qvalue (PySeq.list [1, 2]) (PySeq.tuple [0])).1 = 0 :=
  ⟨by decide, C1_unseen_pair_default_zero Agent.init _ _ (by decide)⟩

/-- C2: after `set_qvalue(s, a, v)`, `get_qvalue(s, a)` returns `v`, and
this holds whichever containers (list or tuple) carried the state and the
action on either call, as long as the element sequences coincide: both
operations normalise their arguments with `tuple(list(x))`. -/
theorem C2_set_then_get (ag : Agent) (st ac st2 ac2 : PySeq) (v : Rat)
    (hs : st2.toTuple = st.toTuple) (ha : ac2.toTuple = ac.toTuple) :
    ((ag.set_qvalue st ac v).get_qvalue st2 ac2).1 = v := by
  rw [get_qvalue_fst, hs, ha, qlookup_set_qvalue]
  simp

/-- Witness for C2: set with lists `[1, 2]`, `[0]`, value `5`; get with
tuples `(1, 2)`, `(0,)`. -/
theorem C2_witness :
    (PySeq.tuple [1, 2]).toTuple = (PySeq.list [1, 2]).toTuple ∧
    (PySeq.tuple [0]).toTuple = (PySeq.list [0]).toTuple ∧
    ((Agent.init.set_qvalue (PySeq.list [1, 2]) (PySeq.list [0]) 5).get_qvalue
        (PySeq.tuple [1, 2]) (PySeq.tuple [0])).1 = 5 :=
  ⟨rfl, rfl, C2_set_then_get Agent.init _ _ _ _ 5 rfl rfl⟩

/-- C3: persistence round trip.  Loading `save_model`'s output into a
fresh agent succeeds, and the resulting table answers every `get_qvalue`
query — stored pairs and unseen pairs alike — exactly as the original
agent did; in particular a pair with no entry in the original table still
gets `0` after the round trip. -/
theorem C3_save_load_round_trip (ag : Agent) (st ac : PySeq) :
    (Agent.init.load_model (some ag.save_model)).1 = none ∧
    ((Agent.init.load_model (some ag.save_model)).2.get_qvalue st ac).1 =
      (ag.get_qvalue st ac).1 ∧
    (dictLookup2 ag.qvalues st.toTuple ac.toTuple = none →
      ((Agent.init.load_model (some ag.save_model)).2.get_qvalue st ac).1 = 0) := by
  rw [load_model_some, save_model_eq_qvalues]
  refine ⟨rfl, ?_, ?_⟩
  · rw [get_qvalue_fst, get_qvalue_fst]
  · intro h
    rw [get_qvalue_fst]
    exact qlookup_eq_zero_of_not_stored _ _ _ h

/-- Witness for C3: round-trip an agent holding one entry `([1], [2]) ↦ 7`
and query the stored pair. -/
theorem C3_witness :
    (((Agent.init.set_qvalue (PySeq.list [1]) (PySeq.list [2]) 7).save_model
        |> some |> Agent.init.load_model).2.get_qvalue
        (PySeq.tuple [1]) (PySeq.tuple [2])).1 =
      ((Agent.init.set_qvalue (PySeq.list [1]) (PySeq.list [2]) 7).get_qvalue
        (PySeq.tuple [1]) (PySeq.tuple [2])).1 :=
  (C3_save_load_round_trip (Agent.init.set_qvalue (PySeq.list [1]) (PySeq.list [2]) 7)
    (PySeq.tuple [1]) (PySeq.tuple [2])).2.1

/-- Counterexample to C4 as stated: a fresh agent that was never written
to, only queried once via `get_qvalue([0], [1])`, saves a model that
contains a zero entry for the merely-queried pair — `defaultdict`
vivification inserts `([0], [1]) ↦ 0` on the read, and `save_model`
copies every entry of `_qvalues` into the persisted dictionary. -/
theorem C4_counterexample :
    dictLookup2
        ((Agent.init.get_qvalue (PySeq.list [0]) (PySeq.list [1])).2.save_model)
        [0] [1] = some 0 := by
  decide

/-- C4 amended: `save_model` persists exactly the entries of the
in-memory table — pairs explicitly set appear with their values and pairs
never touched are absent, but pairs merely queried through `get_qvalue`
also appear, with value `0`, because the read inserted them. -/
theorem C4_save_model_exact_entries (ag : Agent) (s a : List Int) :
    dictLookup2 ag.save_model s a = dictLookup2 ag.qvalues s a := by
  rw [save_model_eq_qvalues]

/-- C5: `load_model` replaces the table wholesale.  After a successful
load, any pair with no entry in the loaded file reads as `0`, whatever
value the agent held for it before the load. -/
theorem C5_load_replaces_wholesale (ag : Agent) (d : QTable) (st ac : PySeq)
    (h : dictLookup2 d st.toTuple ac.toTuple = none) :
    ((ag.load_model (some d)).2.get_qvalue st ac).1 = 0 := by
  rw [load_model_some, get_qvalue_fst]
  exact qlookup_eq_zero_of_not_stored _ _ _ h

/-- Witness for C5: an agent holding `([1], [2]) ↦ 7` loads an empty
file; the previously nonzero pair now reads `0`. -/
theorem C5_witness :
    dictLookup2 ([] : QTable) (PySeq.list [1]).toTuple (PySeq.list [2]).toTuple = none ∧
    (((Agent.init.set_qvalue (PySeq.list [1]) (PySeq.list [2]) 7).load_model
        (some [])).2.get_qvalue (PySeq.list [1]) (PySeq.list [2])).1 = 0 :=
  ⟨rfl, C5_load_replaces_wholesale
    (Agent.init.set_qvalue (PySeq.list [1]) (PySeq.list [2]) 7) [] _ _ rfl⟩

/-- C6: `load_model` is atomic with respect to failure.  When the file is
missing or does not deserialise to the expected two-level mapping, the
call raises the error, the agent object is exactly the one from before
the call, and every `get_qvalue` result is unchanged — the exception is
raised before `_qvalues` is reassigned. -/
theorem C6_load_failure_atomic (ag : Agent) (st ac : PySeq) :
    (ag.load_model none).1 = some LoadError.fileNotFoundOrBadFormat ∧
    (ag.load_model none).2 = ag ∧
    ((ag.load_model none).2.get_qvalue st ac).1 = (ag.get_qvalue st ac).1 :=
  ⟨rfl, rfl, rfl⟩

/-- C7: `RandomAgent.get_value` returns `0` on an empty candidate list
and otherwise the arithmetic mean of `get_qvalue(state, a)` over the
candidates. -/
theorem C7_get_value_mean (ag : Agent) (st : PySeq) (pa : List PySeq) :
    (RandomAgent.get_value ag st pa).1 =
      if pa = [] then 0
      else (pa.map (fun a => (ag.get_qvalue st a).1)).sum / (pa.length : Rat) := by
  rw [get_value_fst_eq, qvalComprehension_fst]
  have hm : (fun a : PySeq => (ag.get_qvalue st a).1)
      = fun a : PySeq => qlookup ag.qvalues st.toTuple a.toTuple := by
    funext a
    exact get_qvalue_fst ag st a
  rw [hm]
  by_cases hpa : pa = []
  · subst hpa
    simp
  · have hlen : pa.length ≠ 0 := by
      simpa [List.length_eq_zero] using hpa
    simp [hpa, hlen]

/-- C8: `RandomAgent.get_action` returns `None` on an empty list, and for
every outcome of the random draw — `np.random.choice(range(len(actions)))`
yields an index `idx_choice < len(actions)`, each with equal probability —
it returns the list element at that index, which is a member of the input
list.  (The index ↦ element correspondence transports the uniform
distribution over indices to the choice among list positions.) -/
theorem C8_get_action_member {α : Type} (pa : List α) (idx_choice : Nat)
    (h : idx_choice < pa.length) :
    RandomAgent.get_action ([] : List α) idx_choice = none ∧
    RandomAgent.get_action pa idx_choice = some (pa.get ⟨idx_choice, h⟩) ∧
    pa.get ⟨idx_choice, h⟩ ∈ pa := by
  refine ⟨rfl, ?_, List.get_mem pa idx_choice h⟩
  have hne : pa.length ≠ 0 := Nat.pos_iff_ne_zero.mp (Nat.lt_of_le_of_lt (Nat.zero_le _) h)
  simp [RandomAgent.get_action, hne, List.getElem?_eq_getElem h]

/-- Witness for C8: drawing index 1 from `[[1], [2], [3]]` yields `[2]`,
a member of the list. -/
theorem C8_witness :
    RandomAgent.get_action ([] : List (List Int)) 1 = none ∧
    RandomAgent.get_action ([[1], [2], [3]] : List (List Int)) 1 = some [2] ∧
    ([2] : List Int) ∈ ([[1], [2], [3]] : List (List Int)) :=
  C8_get_action_member ([[1], [2], [3]] : List (List Int)) 1 (by decide)

/-- C9: `RandomAgent.update` is a no-op on the value table: for any
arguments, the table object and every `get_qvalue` result are unchanged. -/
theorem C9_update_noop (ag : Agent) (st ac : PySeq) (r : Rat) (ns : PySeq)
    (st2 ac2 : PySeq) :
    ((RandomAgent.update ag st ac r ns).get_qvalue st2 ac2).1 =
      (ag.get_qvalue st2 ac2).1 ∧
    (RandomAgent.update ag st ac r ns).qvalues = ag.qvalues :=
  ⟨rfl, rfl⟩

/-- C10: the learning flag never influences RandomAgent's observable
behaviour.  Two agents agreeing on the value table — e.g. one after
`learning_mode_on`, one after `learning_mode_off` — return the same
`get_qvalue` value and leave equal tables, return the same `get_value`
and leave equal tables, and `update` leaves equal tables.  (`get_action`
reads nothing from `self` at all in the source, so it trivially agrees
for the same random draw.) -/
theorem C10_learn_flag_unobservable (ag1 ag2 : Agent)
    (hq : ag1.qvalues = ag2.qvalues) (st ac : PySeq) (pa : List PySeq)
    (r : Rat) (ns : PySeq) :
    (ag1.get_qvalue st ac).1 = (ag2.get_qvalue st ac).1 ∧
    (ag1.get_qvalue st ac).2.qvalues = (ag2.get_qvalue st ac).2.qvalues ∧
    (RandomAgent.get_value ag1 st pa).1 = (RandomAgent.get_value ag2 st pa).1 ∧
    (RandomAgent.get_value ag1 st pa).2.qvalues =
      (RandomAgent.get_value ag2 st pa).2.qvalues ∧
    (RandomAgent.update ag1 st ac r ns).qvalues =
      (RandomAgent.update ag2 st ac r ns).qvalues := by
  obtain ⟨q1, b1⟩ := ag1
  obtain ⟨q2, b2⟩ := ag2
  change q1 = q2 at hq
  subst hq
  refine ⟨rfl, rfl, ?_, ?_, rfl⟩
  · rw [get_value_fst_eq, get_value_fst_eq,
      (qvalComprehension_learn_indep st pa q1 b1 b2).1]
  · rw [get_value_snd_eq, get_value_snd_eq]
    exact (qvalComprehension_learn_indep st pa q1 b1 b2).2

/-- Witness for C10: a fresh agent after `learning_mode_on` versus after
`learning_mode_off`, compared on a query, a `get_value` call and an
`update`. -/
theorem C10_witness :
    ((Agent.init.learning_mode_on).get_qvalue (PySeq.list [1]) (PySeq.list [2])).1 =
      ((Agent.init.learning_mode_off).get_qvalue (PySeq.list [1]) (PySeq.list [2])).1 ∧
    ((Agent.init.learning_mode_on).get_qvalue (PySeq.list [1]) (PySeq.list [2])).2.qvalues =
      ((Agent.init.learning_mode_off).get_qvalue (PySeq.list [1]) (PySeq.list [2])).2.qvalues ∧
    (RandomAgent.get_value Agent.init.learning_mode_on (PySeq.list [1]) [PySeq.list [3]]).1 =
      (RandomAgent.get_value Agent.init.learning_mode_off (PySeq.list [1]) [PySeq.list [3]]).1 ∧
    (RandomAgent.get_value Agent.init.learning_mode_on (PySeq.list [1]) [PySeq.list [3]]).2.qvalues =
      (RandomAgent.get_value Agent.init.learning_mode_off (PySeq.list [1]) [PySeq.list [3]]).2.qvalues ∧
    (RandomAgent.update Agent.init.learning_mode_on (PySeq.list [1]) (PySeq.list [2]) 1 (PySeq.list [4])).qvalues =
      (RandomAgent.update Agent.init.learning_mode_off (PySeq.list [1]) (PySeq.list [2]) 1 (PySeq.list [4])).qvalues :=
  C10_learn_flag_unobservable Agent.init.learning_mode_on Agent.init.learning_mode_off
    rfl (PySeq.list [1]) (PySeq.list [2]) [PySeq.list [3]] 1 (PySeq.list [4])
